import Mathlib

/-!
Shallow embedding of the synthetic daily spare-parts demand generator
(`src/main.py`) and verification of its specification claims.

Modelling conventions:
* Float arithmetic is embedded as exact arithmetic in a linear ordered field
  `α` (instantiated at `ℚ` for concrete evaluation, at `ℝ` where the claim
  needs `10 ** u` for non-integer `u`, which is `Real.rpow`).
* `numpy`/`scipy` random draws come from one seeded stream; each draw is
  modelled as reading one position of an abstract stream (`Rng`), so the
  order in which positions are consumed is exactly the order in which the
  source consumes randomness.  Distributional facts (e.g. `uniform(a, b)`
  lands in `[a, b]`, `rand()` lands in `[0, 1)`) are hypotheses on the
  stream where a claim needs them.
* `pandas` timestamps are integer day counts since 1970-01-01; calendar
  accessors (`year`, `month`, `weekday`) are derived with the standard
  civil-from-days algorithm, `weekday` with Monday = 0 as in Python.
-/

namespace SpareParts

/-! ## Calendar model -/

/-- A pandas timestamp at daily resolution: days since 1970-01-01. -/
structure Timestamp where
  days : ℤ
deriving DecidableEq, Repr

/-- Standard civil-from-days conversion (proleptic Gregorian calendar):
returns `(year, month, day)` for a day count since 1970-01-01.  Divisions
are floor divisions (Lean's `/` on `ℤ` with positive divisor). -/
def civilFromDays (z0 : ℤ) : ℤ × ℤ × ℤ :=
  let z := z0 + 719468
  let era := z / 146097
  let doe := z - era * 146097
  let yoe := (doe - doe / 1460 + doe / 36524 - doe / 146096) / 365
  let y := yoe + era * 400
  let doy := doe - (365 * yoe + yoe / 4 - yoe / 100)
  let mp := (5 * doy + 2) / 153
  let d := doy - (153 * mp + 2) / 5 + 1
  let m := if mp < 10 then mp + 3 else mp - 9
  (if m ≤ 2 then y + 1 else y, m, d)

/-- `cal_date.year` in the source. -/
def Timestamp.year (t : Timestamp) : ℤ := (civilFromDays t.days).1

/-- `cal_date.month` in the source. -/
def Timestamp.month (t : Timestamp) : ℤ := (civilFromDays t.days).2.1

/-- `cal_date.weekday()` in the source: Monday = 0 … Sunday = 6.
1970-01-01 (day 0) was a Thursday, i.e. weekday 3. -/
def Timestamp.weekday (t : Timestamp) : ℤ := (t.days + 3) % 7

/-- Inclusive day count of the window `[s, e]`; 0 when `e < s`. -/
def numDaysInclusive (s e : Timestamp) : ℕ := (e.days - s.days + 1).toNat

/-- `pd.date_range(start, end, freq="D")`: every day `d` with
`start ≤ d ≤ end`, ascending; empty when `end < start`. -/
def dateRange (s e : Timestamp) : List Timestamp :=
  (List.range (numDaysInclusive s e)).map (fun i : ℕ => ⟨s.days + (i : ℤ)⟩)

/-! ## Items and identifiers -/

/-- The four demand-pattern categories. -/
inductive Category
  | smooth
  | erratic
  | slow
  | lumpy
deriving DecidableEq, Repr

/-- Little-endian base-10 digits of `n`, with explicit fuel (`fuel ≥ n`
suffices; `natDigits` passes `n` itself). -/
def digitsRev : ℕ → ℕ → List ℕ
  | 0, _ => []
  | _ + 1, 0 => []
  | f + 1, n + 1 => ((n + 1) % 10) :: digitsRev f ((n + 1) / 10)

/-- Little-endian base-10 digits of `n` (empty for 0). -/
def natDigits (n : ℕ) : List ℕ := digitsRev n n

/-- A decimal digit as a character. -/
def digitChar : ℕ → Char
  | 0 => '0'
  | 1 => '1'
  | 2 => '2'
  | 3 => '3'
  | 4 => '4'
  | 5 => '5'
  | 6 => '6'
  | 7 => '7'
  | 8 => '8'
  | 9 => '9'
  | _ => '*'

/-- Left-pad a (big-endian) digit list with zeros to width 4, as Python's
`%04d` formatting does. -/
def pad4 (ds : List ℕ) : List ℕ := List.replicate (4 - ds.length) 0 ++ ds

/-- `f"SKU-{idx+1:04d}"` in the source: 1-based index, zero-padded to 4. -/
def skuId (idx : ℕ) : String :=
  "SKU-" ++ String.mk ((pad4 (natDigits (idx + 1)).reverse).map digitChar)

/-- One output row: `(Demand Date, Material, Demand Size)`. -/
structure DemandRecord where
  demandDate : Timestamp
  material : String
  demandSize : ℕ
deriving DecidableEq, Repr

/-- The (Material, Demand Date) key of a row. -/
def recKey (r : DemandRecord) : String × Timestamp := (r.material, r.demandDate)

/-- Row comparison used by `df.sort_values(["Material", "Demand Date"])`:
lexicographic on (Material, Demand Date). -/
def recLE (a b : DemandRecord) : Bool :=
  decide (a.material < b.material ∨
    (a.material = b.material ∧ a.demandDate.days ≤ b.demandDate.days))

/-- `df.sort_values(["Material", "Demand Date"])`: sort the rows by the
(Material, Demand Date) key.  (Key collisions never occur in this program,
so any comparison sort produces this result.) -/
def sortRecs (l : List DemandRecord) : List DemandRecord := l.mergeSort recLE

/-! ## The random stream

Each call into the seeded stream is one position of an abstract source; a
batch draw of size `n` consumes `n` consecutive positions.  The field of
`Rng` used at a position records which distribution the source call asked
for there. -/

/-- Abstract view of the single seeded random stream: the value each kind
of draw would produce when issued at a given stream position. -/
structure Rng (α : Type) where
  choiceCat : ℕ → Category
  uniform : ℕ → α → α → α
  randint : ℕ → ℕ → ℕ → ℕ
  rand : ℕ → α
  poisson : ℕ → α → ℕ
  nbinom : ℕ → α → α → ℕ

/-- The per-item parameter bundle sampled by the Parameter Sampler. -/
structure ItemParams (α : Type) where
  cat : Category
  lamDaily : α
  peakYear : ℕ
  decay : α
  meanSize : α
  cvSize : α

section Generator

variable {α : Type} [LinearOrderedField α]

/-- `np.clip(x, lo, hi)`, which is `np.minimum(hi, np.maximum(lo, x))`. -/
def clip (x lo hi : α) : α := min hi (max lo x)

/-- `nb_params(mean, cv)` from the source: Negative-Binomial `(r, p)` for a
given mean and coefficient of variation, or `none` ("use Poisson") when the
implied variance does not exceed the mean. -/
def nb_params (mean cv : α) : Option (α × α) :=
  let var := (cv * mean) ^ 2
  if var ≤ mean then none
  else
    let r := mean ^ 2 / (var - mean)
    let p := r / (r + mean)
    some (r, clip p (1 / 1000000) (1 - 1 / 1000000))

/-- Per-item parameter sampling (source lines 61–77), given the item's
category and the stream position of its first draw; consumes 5 draws:
`dailyRate`, `peakYear`, `decayRate`, `meanSize`, `cvSize` in that order.
`exp10` is the float operation `10 ** ·` applied to the sparse-rate draw. -/
def sampleParams (rng : Rng α) (exp10 : α → α) (cat : Category) (pos : ℕ) :
    ItemParams α × ℕ :=
  let lamDaily := if cat = Category.smooth ∨ cat = Category.erratic
    then rng.uniform pos (7 / 10) 1
    else exp10 (rng.uniform pos (-(7 / 2)) (-1))
  let peakYear := rng.randint (pos + 1) 1 4
  let decay := rng.uniform (pos + 2) (1 / 20) (3 / 20)
  let meanSize := rng.uniform (pos + 3) 1 10
  let cvSize := if cat = Category.smooth ∨ cat = Category.slow
    then rng.uniform (pos + 4) (3 / 10) (3 / 5)
    else rng.uniform (pos + 4) (4 / 5) (5 / 2)
  (⟨cat, lamDaily, peakYear, decay, meanSize, cvSize⟩, pos + 5)

/-- The day-of-week factor lookup `{0..4 ↦ 1.0, 5 ↦ 0.6, 6 ↦ 0.4}`.
A weekday is always in `[0, 7)`, so the final branch (a `KeyError` in the
source) is unreachable. -/
def dowFactor (w : ℤ) : α :=
  if w = 0 ∨ w = 1 ∨ w = 2 ∨ w = 3 ∨ w = 4 then 1
  else if w = 5 then 3 / 5
  else if w = 6 then 2 / 5
  else 0

/-- The seasonal factor: 1.25 in July and December, 1.0 otherwise. -/
def qFactor (m : ℤ) : α := if m = 7 ∨ m = 12 then 5 / 4 else 1

/-- `lam_adj` (source line 85): base rate times the ageing-decay factor,
which floors at 0.1. -/
def agedRate (it : ItemParams α) (sy : ℤ) (t : Timestamp) : α :=
  it.lamDaily *
    max (1 - it.decay * ((max (t.year - sy - (it.peakYear : ℤ)) 0 : ℤ) : α))
      (1 / 10)

/-- `lam_today` (source line 91): the occurrence probability used by the
daily gate. -/
def effectiveRate (it : ItemParams α) (sy : ℤ) (t : Timestamp) : α :=
  agedRate it sy t * dowFactor t.weekday * qFactor t.month

/-- One day of one item (source lines 93–100): the daily gate draw and, on
occurrence, the size draw floored at 1.  Returns the quantity and the next
stream position. -/
def genDay (rng : Rng α) (it : ItemParams α) (sy : ℤ) (sz : Option (α × α))
    (t : Timestamp) (pos : ℕ) : ℕ × ℕ :=
  if rng.rand pos < effectiveRate it sy t then
    match sz with
    | none => (max 1 (rng.poisson (pos + 1) it.meanSize), pos + 2)
    | some rp => (max 1 (rng.nbinom (pos + 1) rp.1 rp.2), pos + 2)
  else (0, pos + 1)

/-- The inner day loop of one item: one record per calendar day, in date
order. -/
def genDays (rng : Rng α) (it : ItemParams α) (sy : ℤ) (sz : Option (α × α))
    (sku : String) : List Timestamp → ℕ → List DemandRecord × ℕ
  | [], pos => ([], pos)
  | t :: ts, pos =>
      let q := genDay rng it sy sz t pos
      let rest := genDays rng it sy sz sku ts q.2
      (⟨t, sku, q.1⟩ :: rest.1, rest.2)

/-- The item loop of the source (`for idx in range(n_sku)`): looks the
item's category up in the pre-drawn batch `cats` by index, samples the
item's parameters, then generates its days. -/
def genLoop (rng : Rng α) (exp10 : α → α) (cats : List Category)
    (dates : List Timestamp) (sy : ℤ) : List ℕ → ℕ → List DemandRecord × ℕ
  | [], pos => ([], pos)
  | idx :: idxs, pos =>
      let cat := cats.getD idx Category.smooth
      let ip := sampleParams rng exp10 cat pos
      let sz := nb_params ip.1.meanSize ip.1.cvSize
      let recs := genDays rng ip.1 sy sz (skuId idx) dates ip.2
      let rest := genLoop rng exp10 cats dates sy idxs recs.2
      (recs.1 ++ rest.1, rest.2)

/-- `generate_data` from the source: the categories of all items are drawn
in one batch (stream positions `0 … n_sku - 1`), then each item in turn
consumes its five parameter draws and its daily draws; the collected rows
are sorted by (Material, Demand Date). -/
def generate_data (rng : Rng α) (exp10 : α → α) (n_sku : ℕ)
    (startD endD : Timestamp) : List DemandRecord :=
  let cats := (List.range n_sku).map rng.choiceCat
  let dates := dateRange startD endD
  sortRecs (genLoop rng exp10 cats dates startD.year (List.range n_sku) n_sku).1

/-- Reference item loop for the amended draw-order claim: consumes the
pre-drawn category batch structurally, one item at a time. -/
def amendedLoop (rng : Rng α) (exp10 : α → α) (dates : List Timestamp)
    (sy : ℤ) : List Category → ℕ → ℕ → List DemandRecord × ℕ
  | [], _, pos => ([], pos)
  | c :: cs, idx, pos =>
      let ip := sampleParams rng exp10 c pos
      let sz := nb_params ip.1.meanSize ip.1.cvSize
      let recs := genDays rng ip.1 sy sz (skuId idx) dates ip.2
      let rest := amendedLoop rng exp10 dates sy cs (idx + 1) recs.2
      (recs.1 ++ rest.1, rest.2)

/-- Reference generator for the amended draw-order claim: first the batch
of `n_sku` category draws (one stream position per item, in item order),
then the items in turn, each consuming `dailyRate`, `peakYear`,
`decayRate`, `meanSize`, `cvSize` and then its daily draws. -/
def generate_amended (rng : Rng α) (exp10 : α → α) (n_sku : ℕ)
    (startD endD : Timestamp) : List DemandRecord :=
  let cats := (List.range n_sku).map rng.choiceCat
  sortRecs (amendedLoop rng exp10 (dateRange startD endD) startD.year cats 0 n_sku).1

/-- Generator in the draw order asserted by the original claim: each
item's category draw happens inside that item's block (immediately before
its `dailyRate` draw), with no batching. -/
def claimLoop (rng : Rng α) (exp10 : α → α) (dates : List Timestamp)
    (sy : ℤ) : ℕ → ℕ → ℕ → List DemandRecord × ℕ
  | 0, _, pos => ([], pos)
  | m + 1, idx, pos =>
      let cat := rng.choiceCat pos
      let ip := sampleParams rng exp10 cat (pos + 1)
      let sz := nb_params ip.1.meanSize ip.1.cvSize
      let recs := genDays rng ip.1 sy sz (skuId idx) dates ip.2
      let rest := claimLoop rng exp10 dates sy m (idx + 1) recs.2
      (recs.1 ++ rest.1, rest.2)

/-- Generator consuming the stream in the per-item order asserted by the
original claim (category inside each item's block). -/
def generate_claimOrder (rng : Rng α) (exp10 : α → α) (n_sku : ℕ)
    (startD endD : Timestamp) : List DemandRecord :=
  sortRecs (claimLoop rng exp10 (dateRange startD endD) startD.year n_sku 0 0).1

end Generator

/-! ## Auxiliary definitions for identifier reasoning and concrete streams -/

/-- Value of a little-endian digit list. -/
def littleVal (ds : List ℕ) : ℕ := ds.foldr (fun d acc => 10 * acc + d) 0

/-- Value of a big-endian digit list. -/
def bigVal (ds : List ℕ) : ℕ := ds.foldl (fun acc d => 10 * acc + d) 0

/-- Numeric value of a digit character. -/
def digitVal (c : Char) : ℕ := c.toNat - 48

/-- A concrete rational-valued stream used for witnesses and for the
draw-order counterexample. -/
def rngQ : Rng ℚ where
  choiceCat := fun p => if p = 1 then Category.smooth else Category.lumpy
  uniform := fun _ _ b => b
  randint := fun _ lo _ => lo
  rand := fun _ => 1 / 2
  poisson := fun _ _ => 0
  nbinom := fun _ _ _ => 0

/-- A constant stand-in for the float operation `10 ** ·` on rationals,
used where a witness only needs some fixed deterministic function. -/
def exp10Q : ℚ → ℚ := fun _ => 1 / 10

/-- A concrete item-parameter bundle used in witnesses. -/
def it0 : ItemParams ℚ := ⟨Category.smooth, 2, 1, 0, 5, 1⟩

/-- The item bundle `rngQ` produces for a lumpy item. -/
def itLumpyQ : ItemParams ℚ := ⟨Category.lumpy, 1 / 10, 1, 3 / 20, 10, 5 / 2⟩

/-- The item bundle `rngQ` produces for a smooth item. -/
def itSmoothQ : ItemParams ℚ := ⟨Category.smooth, 1, 1, 3 / 20, 10, 3 / 5⟩

/-- A concrete real-valued stream (every uniform draw sits at its lower
bound) used to witness the sparse-rate bound. -/
def rngR : Rng ℝ where
  choiceCat := fun _ => Category.slow
  uniform := fun _ a _ => a
  randint := fun _ lo _ => lo
  rand := fun _ => 0
  poisson := fun _ _ => 0
  nbinom := fun _ _ _ => 0

/-- The float operation `10 ** u` for real `u`: real exponentiation. -/
noncomputable def rpow10 : ℝ → ℝ := fun u => (10 : ℝ) ^ u

/-! ## Sanity checks of the calendar embedding -/

theorem civilFromDays_epoch : civilFromDays 0 = (1970, 1, 1) := by decide

theorem civilFromDays_sample : civilFromDays 19358 = (2023, 1, 1) := by decide

theorem civilFromDays_sample2 : civilFromDays 19724 = (2024, 1, 2) := by decide

theorem civilFromDays_sampleJul : (civilFromDays 19915).2.1 = 7 := by decide

theorem weekday_epoch : Timestamp.weekday ⟨0⟩ = 3 := by decide

theorem ts4_year : Timestamp.year ⟨4⟩ = 1970 := by decide

theorem ts4_month : Timestamp.month ⟨4⟩ = 1 := by decide

theorem ts4_weekday : Timestamp.weekday ⟨4⟩ = 0 := by decide

theorem skuId_sample : skuId 0 = "SKU-0001" := by decide

/-! ## Identifier injectivity -/

theorem littleVal_digitsRev : ∀ f n : ℕ, n ≤ f → littleVal (digitsRev f n) = n := by
  intro f
  induction f with
  | zero =>
      intro n h
      have hn : n = 0 := Nat.le_zero.mp h
      subst hn
      rfl
  | succ f ih =>
      intro n h
      cases n with
      | zero => rfl
      | succ m =>
          have hdiv : (m + 1) / 10 ≤ f := by
            have : (m + 1) / 10 < m + 1 := Nat.div_lt_self (Nat.succ_pos m) (by norm_num)
            omega
          show littleVal (((m + 1) % 10) :: digitsRev f ((m + 1) / 10)) = m + 1
          unfold littleVal at *
          simp only [List.foldr_cons]
          rw [ih ((m + 1) / 10) hdiv]
          have := Nat.mod_add_div (m + 1) 10
          omega

theorem digitsRev_lt_ten : ∀ f n : ℕ, ∀ d ∈ digitsRev f n, d < 10 := by
  intro f
  induction f with
  | zero => intro n d hd; simp [digitsRev] at hd
  | succ f ih =>
      intro n d hd
      cases n with
      | zero => simp [digitsRev] at hd
      | succ m =>
          simp only [digitsRev, List.mem_cons] at hd
          rcases hd with h | h
          · subst h; exact Nat.mod_lt _ (by norm_num)
          · exact ih _ d h

theorem bigVal_replicate_zero : ∀ k : ℕ, ∀ ds : List ℕ,
    bigVal (List.replicate k 0 ++ ds) = bigVal ds := by
  intro k
  induction k with
  | zero => intro ds; simp
  | succ k ih =>
      intro ds
      simp only [List.replicate_succ, List.cons_append]
      show bigVal (List.replicate k 0 ++ ds) = bigVal ds
      exact ih ds

theorem bigVal_reverse (l : List ℕ) : bigVal l.reverse = littleVal l := by
  unfold bigVal littleVal
  rw [List.foldl_reverse]

theorem digitVal_digitChar : ∀ d : ℕ, d < 10 → digitVal (digitChar d) = d := by decide

theorem map_digitVal_digitChar : ∀ ds : List ℕ, (∀ d ∈ ds, d < 10) →
    List.map digitVal (List.map digitChar ds) = ds := by
  intro ds
  induction ds with
  | nil => intro _; rfl
  | cons d ds ih =>
      intro h
      simp only [List.map_cons, List.cons.injEq]
      exact ⟨digitVal_digitChar d (h d (List.mem_cons_self d ds)),
        ih (fun x hx => h x (List.mem_cons_of_mem d hx))⟩

theorem pad4_lt_ten (n : ℕ) : ∀ d ∈ pad4 (natDigits n).reverse, d < 10 := by
  intro d hd
  unfold pad4 at hd
  rcases List.mem_append.mp hd with h | h
  · have := List.eq_of_mem_replicate h
    omega
  · exact digitsRev_lt_ten n n d (List.mem_reverse.mp h)

theorem bigVal_pad4_digits (n : ℕ) : bigVal (pad4 (natDigits n).reverse) = n := by
  unfold pad4
  rw [bigVal_replicate_zero, bigVal_reverse]
  exact littleVal_digitsRev n n le_rfl

theorem skuId_injective : Function.Injective skuId := by
  intro i j h
  unfold skuId at h
  have hdata := congrArg String.data h
  rw [String.data_append, String.data_append] at hdata
  have hch : List.map digitChar (pad4 (natDigits (i + 1)).reverse) =
      List.map digitChar (pad4 (natDigits (j + 1)).reverse) :=
    List.append_cancel_left hdata
  have hds : pad4 (natDigits (i + 1)).reverse = pad4 (natDigits (j + 1)).reverse := by
    have := congrArg (List.map digitVal) hch
    rwa [map_digitVal_digitChar _ (pad4_lt_ten (i + 1)),
      map_digitVal_digitChar _ (pad4_lt_ten (j + 1))] at this
  have := congrArg bigVal hds
  rw [bigVal_pad4_digits, bigVal_pad4_digits] at this
  omega

/-! ## Structure of the generated record list -/

section GeneratorLemmas

variable {α : Type} [LinearOrderedField α]

theorem genDays_map_key (rng : Rng α) (it : ItemParams α) (sy : ℤ)
    (sz : Option (α × α)) (sku : String) :
    ∀ (ts : List Timestamp) (pos : ℕ),
      ((genDays rng it sy sz sku ts pos).1).map recKey =
        ts.map (fun t => (sku, t)) := by
  intro ts
  induction ts with
  | nil => intro pos; rfl
  | cons t ts ih =>
      intro pos
      simp only [genDays, List.map_cons, List.map]
      rw [ih]
      rfl

theorem genDays_length (rng : Rng α) (it : ItemParams α) (sy : ℤ)
    (sz : Option (α × α)) (sku : String) (ts : List Timestamp) (pos : ℕ) :
    ((genDays rng it sy sz sku ts pos).1).length = ts.length := by
  have := congrArg List.length (genDays_map_key rng it sy sz sku ts pos)
  simpa using this

theorem genLoop_map_key (rng : Rng α) (exp10 : α → α) (cats : List Category)
    (dates : List Timestamp) (sy : ℤ) :
    ∀ (idxs : List ℕ) (pos : ℕ),
      ((genLoop rng exp10 cats dates sy idxs pos).1).map recKey =
        idxs.flatMap (fun i => dates.map (fun t => (skuId i, t))) := by
  intro idxs
  induction idxs with
  | nil => intro pos; rfl
  | cons idx idxs ih =>
      intro pos
      simp only [genLoop, List.flatMap_cons, List.map_append]
      rw [ih, genDays_map_key]

theorem genLoop_length (rng : Rng α) (exp10 : α → α) (cats : List Category)
    (dates : List Timestamp) (sy : ℤ) :
    ∀ (idxs : List ℕ) (pos : ℕ),
      ((genLoop rng exp10 cats dates sy idxs pos).1).length =
        idxs.length * dates.length := by
  intro idxs
  induction idxs with
  | nil => intro pos; simp [genLoop]
  | cons idx idxs ih =>
      intro pos
      simp only [genLoop, List.length_append, List.length_cons]
      rw [ih, genDays_length]
      ring

theorem genLoop_nil_dates (rng : Rng α) (exp10 : α → α) (cats : List Category)
    (sy : ℤ) : ∀ (idxs : List ℕ) (pos : ℕ),
      (genLoop rng exp10 cats [] sy idxs pos).1 = [] := by
  intro idxs
  induction idxs with
  | nil => intro pos; rfl
  | cons idx idxs ih =>
      intro pos
      simp only [genLoop]
      rw [ih]
      rfl

end GeneratorLemmas

/-! ## The key list of the full table -/

theorem dateRange_nodup (s e : Timestamp) : (dateRange s e).Nodup := by
  have hinj : Function.Injective (fun i : ℕ => Timestamp.mk (s.days + i)) := by
    intro i j hij
    have : s.days + (i : ℤ) = s.days + (j : ℤ) := congrArg Timestamp.days hij
    omega
  exact List.Nodup.map hinj (List.nodup_range _)

theorem product_keys_nodup (dates : List Timestamp) (hd : dates.Nodup) :
    ∀ idxs : List ℕ, idxs.Nodup →
      (idxs.flatMap (fun i => dates.map (fun t => (skuId i, t)))).Nodup := by
  intro idxs
  induction idxs with
  | nil => intro _; exact List.nodup_nil
  | cons i idxs ih =>
      intro hnd
      rcases List.nodup_cons.mp hnd with ⟨hnotmem, hnd'⟩
      simp only [List.flatMap_cons]
      rw [List.nodup_append]
      refine ⟨?_, ih hnd', ?_⟩
      · refine List.Nodup.map ?_ hd
        intro t u htu
        exact (Prod.mk.injEq _ _ _ _ ▸ htu).2
      · rw [List.disjoint_left]
        intro k hk hk'
        rcases List.mem_map.mp hk with ⟨t, _, hkt⟩
        rcases List.mem_flatMap.mp hk' with ⟨j, hj, hkj⟩
        rcases List.mem_map.mp hkj with ⟨u, _, hku⟩
        have h1 : skuId i = k.1 := by rw [← hkt]
        have h2 : skuId j = k.1 := by rw [← hku]
        have : i = j := skuId_injective (h1.trans h2.symm)
        exact hnotmem (this ▸ hj)

/-! ## The sort comparison -/

theorem recLE_trans (a b c : DemandRecord) :
    recLE a b = true → recLE b c = true → recLE a c = true := by
  unfold recLE
  simp only [decide_eq_true_eq]
  rintro (hab | ⟨hab, hab'⟩) (hbc | ⟨hbc, hbc'⟩)
  · exact Or.inl (lt_trans hab hbc)
  · exact Or.inl (hbc ▸ hab)
  · exact Or.inl (hab ▸ hbc)
  · exact Or.inr ⟨hab.trans hbc, le_trans hab' hbc'⟩

theorem recLE_total (a b : DemandRecord) : (recLE a b || recLE b a) = true := by
  unfold recLE
  rw [Bool.or_eq_true, decide_eq_true_eq, decide_eq_true_eq]
  rcases lt_trichotomy a.material b.material with h | h | h
  · exact Or.inl (Or.inl h)
  · rcases le_total a.demandDate.days b.demandDate.days with h' | h'
    · exact Or.inl (Or.inr ⟨h, h'⟩)
    · exact Or.inr (Or.inr ⟨h.symm, h'⟩)
  · exact Or.inr (Or.inl h)

theorem sortRecs_perm (l : List DemandRecord) : (sortRecs l).Perm l :=
  List.mergeSort_perm l recLE

theorem sortRecs_sorted (l : List DemandRecord) :
    (sortRecs l).Pairwise (fun a b => recLE a b = true) :=
  List.sorted_mergeSort recLE_trans recLE_total l

theorem sortRecs_count (l : List DemandRecord) (k : String × Timestamp) :
    @List.count _ instBEqOfDecidableEq k ((sortRecs l).map recKey) =
      @List.count _ instBEqOfDecidableEq k (l.map recKey) :=
  ((sortRecs_perm l).map recKey).count_eq k

/-! ## Claims -/

/-- C1: for every input with `mean > 0` and `cv ≥ 0`, the Distribution
Solver `nb_params` returns the Poisson-fallback sentinel iff
`(cv·mean)² ≤ mean` (equivalently `cv²·mean ≤ 1`); otherwise it returns
exactly `r = mean²/(variance − mean)` and `p = r/(r + mean)` clipped into
`[1e-6, 1 − 1e-6]`, with `variance = (cv·mean)²`.  It is a pure function
of its arguments, so it is deterministic and consumes no randomness. -/
theorem nb_params_spec {α : Type} [LinearOrderedField α] (mean cv : α)
    (hmean : 0 < mean) (_hcv : 0 ≤ cv) :
    (nb_params mean cv = none ↔ (cv * mean) ^ 2 ≤ mean) ∧
    ((cv * mean) ^ 2 ≤ mean ↔ cv ^ 2 * mean ≤ 1) ∧
    (mean < (cv * mean) ^ 2 →
      nb_params mean cv =
        some (mean ^ 2 / ((cv * mean) ^ 2 - mean),
          clip ((mean ^ 2 / ((cv * mean) ^ 2 - mean)) /
              (mean ^ 2 / ((cv * mean) ^ 2 - mean) + mean))
            (1 / 1000000) (1 - 1 / 1000000))) := by
  refine ⟨?_, ?_, ?_⟩
  · simp only [nb_params]
    split_ifs with h
    · simpa using h
    · simpa using h
  · rw [show (cv * mean) ^ 2 = cv ^ 2 * mean * mean by ring]
    exact mul_le_iff_le_one_left hmean
  · intro h
    simp only [nb_params]
    rw [if_neg (not_le.mpr h)]

theorem nb_params_spec_witness : nb_params (3 : ℚ) 1 = some (3 / 2, 1 / 3) := by
  have h := nb_params_spec (3 : ℚ) 1 (by norm_num) (by norm_num)
  rw [h.2.2 (by norm_num)]
  norm_num [clip, min_def, max_def]

/-- C9: whenever `nb_params` returns Negative-Binomial parameters, the
returned `r` is strictly positive and the returned `p` lies in
`[1e-6, 1 − 1e-6]`, a subset of `(0, 1)`; so the Negative-Binomial sampler
is always invoked with valid parameters and its invalid-parameter error
branch is unreachable. -/
theorem nb_params_valid {α : Type} [LinearOrderedField α] (mean cv r p : α)
    (hmean : 0 < mean) (h : nb_params mean cv = some (r, p)) :
    0 < r ∧ 1 / 1000000 ≤ p ∧ p ≤ 1 - 1 / 1000000 ∧ 0 < p ∧ p < 1 := by
  have hvar : mean < (cv * mean) ^ 2 := by
    by_contra hc
    push_neg at hc
    simp [nb_params, if_pos hc] at h
  simp only [nb_params, if_neg (not_le.mpr hvar), Option.some.injEq,
    Prod.mk.injEq] at h
  obtain ⟨hr, hp⟩ := h
  have hlo : (1 / 1000000 : α) ≤ 1 - 1 / 1000000 := by norm_num
  have hple : p ≤ 1 - 1 / 1000000 := by
    rw [← hp]; exact min_le_left _ _
  have hpge : (1 / 1000000 : α) ≤ p := by
    rw [← hp]; exact le_min hlo (le_max_left _ _)
  refine ⟨?_, hpge, hple, lt_of_lt_of_le (by norm_num) hpge,
    lt_of_le_of_lt hple (by norm_num)⟩
  rw [← hr]
  exact div_pos (pow_pos hmean 2) (by linarith)

theorem nb_params_valid_witness :
    0 < (3 / 2 : ℚ) ∧ (1 / 1000000 : ℚ) ≤ 1 / 3 ∧ (1 / 3 : ℚ) ≤ 1 - 1 / 1000000 ∧
      0 < (1 / 3 : ℚ) ∧ (1 / 3 : ℚ) < 1 :=
  nb_params_valid 3 1 (3 / 2) (1 / 3) (by norm_num)
    (by norm_num [nb_params, clip, min_def, max_def])

/-- C3: every daily quantity is a natural number; on each day it is 0
exactly when the uniform gate draw is at least the effective rate (no
occurrence), and otherwise it is at least 1, the drawn size being floored
at 1. -/
theorem genDay_quantity {α : Type} [LinearOrderedField α] (rng : Rng α)
    (it : ItemParams α) (sy : ℤ) (sz : Option (α × α)) (t : Timestamp) (pos : ℕ) :
    ((genDay rng it sy sz t pos).1 = 0 ↔ effectiveRate it sy t ≤ rng.rand pos) ∧
    ((genDay rng it sy sz t pos).1 = 0 ∨ 1 ≤ (genDay rng it sy sz t pos).1) := by
  unfold genDay
  split_ifs with h
  · cases sz with
    | none =>
        refine ⟨iff_of_false ?_ (not_le.mpr h), Or.inr (le_max_left _ _)⟩
        show ¬ max 1 (rng.poisson (pos + 1) it.meanSize) = 0
        omega
    | some rp =>
        refine ⟨iff_of_false ?_ (not_le.mpr h), Or.inr (le_max_left _ _)⟩
        show ¬ max 1 (rng.nbinom (pos + 1) rp.1 rp.2) = 0
        omega
  · exact ⟨iff_of_true rfl (not_lt.mp h), Or.inl rfl⟩

/-- C4: the occurrence probability used by the gate equals
`dailyRate · max(1 − decayRate · max(calendarYear − startYear − peakYear, 0), 0.1)`
times the day-of-week factor (1.0 for weekdays 0–4 = Monday–Friday, 0.6
for Saturday = 5, 0.4 for Sunday = 6) times the seasonal factor (1.25 in
July and December, 1.0 otherwise); the ageing factor floors at 0.1 (10 %
of the base rate) and is strictly positive. -/
theorem effectiveRate_formula {α : Type} [LinearOrderedField α]
    (it : ItemParams α) (sy : ℤ) (t : Timestamp) :
    effectiveRate it sy t =
      it.lamDaily *
        max (1 - it.decay * ((max (t.year - sy - (it.peakYear : ℤ)) 0 : ℤ) : α))
          (1 / 10) *
        (if 0 ≤ t.weekday ∧ t.weekday ≤ 4 then 1
          else if t.weekday = 5 then 3 / 5 else 2 / 5) *
        (if t.month = 7 ∨ t.month = 12 then 5 / 4 else 1) ∧
    (1 / 10 : α) ≤
      max (1 - it.decay * ((max (t.year - sy - (it.peakYear : ℤ)) 0 : ℤ) : α))
        (1 / 10) ∧
    (0 : α) <
      max (1 - it.decay * ((max (t.year - sy - (it.peakYear : ℤ)) 0 : ℤ) : α))
        (1 / 10) := by
  refine ⟨?_, le_max_right _ _, lt_of_lt_of_le (by norm_num) (le_max_right _ _)⟩
  unfold effectiveRate agedRate
  congr 1
  congr 1
  have h0 : 0 ≤ t.weekday := Int.emod_nonneg _ (by norm_num)
  have h7 : t.weekday < 7 := Int.emod_lt_of_pos _ (by norm_num)
  unfold dowFactor
  generalize t.weekday = w at h0 h7 ⊢
  interval_cases w <;> norm_num

/-- C7: on any item-day whose effective rate is at least 1, the gate draw
(which lies in `[0, 1)`) is necessarily below the effective rate, so an
occurrence happens with certainty and the quantity is at least 1; no clamp
of the effective rate to `[0, 1]` is applied before the comparison. -/
theorem gate_saturates {α : Type} [LinearOrderedField α] (rng : Rng α)
    (it : ItemParams α) (sy : ℤ) (sz : Option (α × α)) (t : Timestamp) (pos : ℕ)
    (hu : rng.rand pos < 1) (hrate : 1 ≤ effectiveRate it sy t) :
    rng.rand pos < effectiveRate it sy t ∧ 1 ≤ (genDay rng it sy sz t pos).1 := by
  have hlt : rng.rand pos < effectiveRate it sy t := lt_of_lt_of_le hu hrate
  refine ⟨hlt, ?_⟩
  unfold genDay
  rw [if_pos hlt]
  cases sz with
  | none => exact le_max_left _ _
  | some rp => exact le_max_left _ _

theorem gate_saturates_witness :
    rngQ.rand 7 < effectiveRate it0 1970 ⟨4⟩ ∧
      1 ≤ (genDay rngQ it0 1970 none ⟨4⟩ 7).1 :=
  gate_saturates rngQ it0 1970 none ⟨4⟩ 7 (by norm_num [rngQ])
    (by norm_num [effectiveRate, agedRate, dowFactor, qFactor, it0, ts4_year,
      ts4_month, ts4_weekday, max_def])

/-- C2: for every valid window (`start ≤ end`), the generated table has
exactly `n_sku × numDaysInclusive(start, end)` rows, and every
(item, day) pair of the window appears on exactly one row — zero-demand
days included as explicit records. -/
theorem generate_data_shape {α : Type} [LinearOrderedField α] (rng : Rng α)
    (exp10 : α → α) (n : ℕ) (s e : Timestamp) (_h : s.days ≤ e.days) :
    (generate_data rng exp10 n s e).length = n * numDaysInclusive s e ∧
    ∀ i < n, ∀ t ∈ dateRange s e,
      @List.count _ instBEqOfDecidableEq (skuId i, t)
        ((generate_data rng exp10 n s e).map recKey) = 1 := by
  constructor
  · simp only [generate_data]
    rw [(sortRecs_perm _).length_eq, genLoop_length]
    simp [dateRange]
  · intro i hi t ht
    simp only [generate_data]
    rw [sortRecs_count, genLoop_map_key]
    refine List.count_eq_one_of_mem
      (product_keys_nodup _ (dateRange_nodup s e) _ (List.nodup_range n)) ?_
    rw [List.mem_flatMap]
    exact ⟨i, List.mem_range.mpr hi, List.mem_map.mpr ⟨t, ht, rfl⟩⟩

theorem generate_data_shape_witness :
    (generate_data rngQ exp10Q 1 ⟨0⟩ ⟨0⟩).length = 1 * numDaysInclusive ⟨0⟩ ⟨0⟩ ∧
    ∀ i < 1, ∀ t ∈ dateRange ⟨0⟩ ⟨0⟩,
      @List.count _ instBEqOfDecidableEq (skuId i, t)
        ((generate_data rngQ exp10Q 1 ⟨0⟩ ⟨0⟩).map recKey) = 1 :=
  generate_data_shape rngQ exp10Q 1 ⟨0⟩ ⟨0⟩ (by decide)

/-- C8: the output table is sorted by item identifier ascending and then
by date ascending, and its (item, date) key column has no duplicates. -/
theorem generate_data_sorted {α : Type} [LinearOrderedField α] (rng : Rng α)
    (exp10 : α → α) (n : ℕ) (s e : Timestamp) :
    (generate_data rng exp10 n s e).Pairwise (fun a b =>
      a.material < b.material ∨
        (a.material = b.material ∧ a.demandDate.days ≤ b.demandDate.days)) ∧
    ((generate_data rng exp10 n s e).map recKey).Nodup := by
  constructor
  · exact (sortRecs_sorted _).imp (fun hab => of_decide_eq_true hab)
  · simp only [generate_data]
    refine (((sortRecs_perm _).map recKey).symm).nodup ?_
    rw [genLoop_map_key]
    exact product_keys_nodup _ (dateRange_nodup s e) _ (List.nodup_range n)

/-- C6 (the behaviour the code actually has on an inverted window): when
`end < start`, `generate_data` silently returns the empty table — no
failure occurs before generation, contradicting the claimed fail-fast
behaviour. -/
theorem generate_data_inverted_window {α : Type} [LinearOrderedField α]
    (rng : Rng α) (exp10 : α → α) (n : ℕ) (s e : Timestamp)
    (h : e.days < s.days) : generate_data rng exp10 n s e = [] := by
  have hdates : dateRange s e = [] := by
    have h0 : numDaysInclusive s e = 0 := by
      unfold numDaysInclusive
      omega
    simp [dateRange, h0]
  simp only [generate_data, hdates]
  rw [genLoop_nil_dates]
  simp [sortRecs]

theorem generate_data_inverted_window_witness :
    generate_data rngQ exp10Q 2 ⟨1⟩ ⟨0⟩ = [] :=
  generate_data_inverted_window rngQ exp10Q 2 ⟨1⟩ ⟨0⟩ (by decide)

/-! ## Draw order (C5) -/

theorem genLoop_eq_amendedLoop {α : Type} [LinearOrderedField α] (rng : Rng α)
    (exp10 : α → α) (dates : List Timestamp) (sy : ℤ) (cats : List Category) :
    ∀ (cs : List Category) (k pos : ℕ), cats.drop k = cs →
      genLoop rng exp10 cats dates sy (List.range' k cs.length) pos =
        amendedLoop rng exp10 dates sy cs k pos := by
  intro cs
  induction cs with
  | nil => intro k pos hdrop; rfl
  | cons c cs ih =>
      intro k pos hdrop
      have hget : cats.getD k Category.smooth = c := by
        rw [List.getD_eq_getElem?_getD, ← List.head?_drop, hdrop]
        rfl
      have hdrop' : cats.drop (k + 1) = cs := by
        rw [← List.tail_drop, hdrop]
        rfl
      simp only [List.length_cons, List.range'_succ]
      simp only [genLoop, amendedLoop, hget]
      rw [ih (k + 1) _ hdrop']

/-- C5 (amended): all randomness comes from the single seeded stream, but
the categories of all items are drawn first in one batch (one draw per
item, in item order, stream positions `0 … n−1`); only then does each item
in turn consume `dailyRate`, `peakYear`, `decayRate`, `meanSize`,
`cvSize` in that fixed field order followed by one gate draw per day (plus
a size draw on each occurrence), with no draws of other items
interleaved after the category batch.  Generation is equal, draw for draw,
to this batch-then-per-item reference order, and is a pure function of the
stream, so a fixed seed reproduces an identical table. -/
theorem generate_data_draw_order {α : Type} [LinearOrderedField α]
    (rng : Rng α) (exp10 : α → α) (n : ℕ) (s e : Timestamp) :
    generate_data rng exp10 n s e = generate_amended rng exp10 n s e := by
  simp only [generate_data, generate_amended]
  generalize hc : List.map rng.choiceCat (List.range n) = cats0
  have hlen : cats0.length = n := by rw [← hc]; simp
  have h := genLoop_eq_amendedLoop rng exp10 (dateRange s e) s.year
    cats0 cats0 0 n (List.drop_zero _)
  rw [hlen] at h
  rw [List.range_eq_range', h]

/-- Concrete evaluations used by the draw-order counterexample. -/
theorem range_two : List.range 2 = [0, 1] := by decide

theorem cats_code : List.map rngQ.choiceCat [0, 1] =
    [Category.lumpy, Category.smooth] := by decide

theorem cc_zero : rngQ.choiceCat 0 = Category.lumpy := by decide

theorem cc_seven : rngQ.choiceCat 7 = Category.lumpy := by decide

theorem dates_single : dateRange ⟨4⟩ ⟨4⟩ = [⟨4⟩] := by decide

theorem sku_one : skuId 1 = "SKU-0002" := by decide

theorem sp_lumpy (pos : ℕ) : sampleParams rngQ exp10Q Category.lumpy pos =
    (itLumpyQ, pos + 5) := by
  simp [sampleParams, rngQ, exp10Q, itLumpyQ]

theorem sp_smooth (pos : ℕ) : sampleParams rngQ exp10Q Category.smooth pos =
    (itSmoothQ, pos + 5) := by
  simp [sampleParams, rngQ, exp10Q, itSmoothQ]

theorem eff_lumpy : effectiveRate itLumpyQ 1970 ⟨4⟩ = 1 / 10 := by
  norm_num [itLumpyQ, effectiveRate, agedRate, dowFactor, qFactor, ts4_year,
    ts4_month, ts4_weekday, max_def]

theorem eff_smooth : effectiveRate itSmoothQ 1970 ⟨4⟩ = 1 := by
  norm_num [itSmoothQ, effectiveRate, agedRate, dowFactor, qFactor, ts4_year,
    ts4_month, ts4_weekday, max_def]

theorem day_lumpy (sz : Option (ℚ × ℚ)) (pos : ℕ) :
    genDay rngQ itLumpyQ 1970 sz ⟨4⟩ pos = (0, pos + 1) := by
  simp only [genDay, eff_lumpy]
  norm_num [rngQ]

theorem day_smooth (sz : Option (ℚ × ℚ)) (pos : ℕ) :
    genDay rngQ itSmoothQ 1970 sz ⟨4⟩ pos = (1, pos + 2) := by
  simp only [genDay, eff_smooth]
  cases sz <;> norm_num [rngQ]

theorem days_lumpy (sz : Option (ℚ × ℚ)) (sku : String) (pos : ℕ) :
    genDays rngQ itLumpyQ 1970 sz sku [⟨4⟩] pos = ([⟨⟨4⟩, sku, 0⟩], pos + 1) := by
  simp [genDays, day_lumpy]

theorem days_smooth (sz : Option (ℚ × ℚ)) (sku : String) (pos : ℕ) :
    genDays rngQ itSmoothQ 1970 sz sku [⟨4⟩] pos = ([⟨⟨4⟩, sku, 1⟩], pos + 2) := by
  simp [genDays, day_smooth]

theorem eval_code_recs :
    (genLoop rngQ exp10Q [Category.lumpy, Category.smooth] [⟨4⟩] 1970 [0, 1] 2).1 =
      [⟨⟨4⟩, "SKU-0001", 0⟩, ⟨⟨4⟩, "SKU-0002", 1⟩] := by
  simp [genLoop, List.getD_cons_zero, List.getD_cons_succ, sp_lumpy, sp_smooth,
    days_lumpy, days_smooth, skuId_sample, sku_one]

theorem eval_claim_recs :
    (claimLoop rngQ exp10Q [⟨4⟩] 1970 2 0 0).1 =
      [⟨⟨4⟩, "SKU-0001", 0⟩, ⟨⟨4⟩, "SKU-0002", 0⟩] := by
  simp [claimLoop, cc_zero, cc_seven, sp_lumpy, days_lumpy, skuId_sample, sku_one]

/-- C5 (counterexample): with two items and a one-day window there is a
stream on which the program's output differs from the output of the
claimed per-item draw order (category drawn inside each item's block), so
the claimed order is not equal, draw for draw, to the program's. -/
theorem draw_order_counterexample :
    generate_data rngQ exp10Q 2 ⟨4⟩ ⟨4⟩ ≠ generate_claimOrder rngQ exp10Q 2 ⟨4⟩ ⟨4⟩ := by
  have h1 : (⟨⟨4⟩, "SKU-0002", 1⟩ : DemandRecord) ∈
      generate_data rngQ exp10Q 2 ⟨4⟩ ⟨4⟩ := by
    simp only [generate_data, range_two, cats_code, dates_single, ts4_year]
    rw [eval_code_recs]
    exact ((sortRecs_perm _).mem_iff).mpr (by decide)
  have h2 : (⟨⟨4⟩, "SKU-0002", 1⟩ : DemandRecord) ∉
      generate_claimOrder rngQ exp10Q 2 ⟨4⟩ ⟨4⟩ := by
    simp only [generate_claimOrder, dates_single, ts4_year]
    rw [eval_claim_recs]
    intro hmem
    have := ((sortRecs_perm _).mem_iff).mp hmem
    revert this
    decide
  intro heq
  rw [heq] at h1
  exact h2 h1

/-- C10: for a slow or lumpy item the base rate is `10 ** u` with
`u ≤ −1`, hence at most 0.1; the ageing factor is at most 1 and the
day-of-week and seasonal factors are at most 1.0 and 1.25, so the
effective rate never exceeds 1/8 < 1 — the gate can saturate only for
smooth or erratic items. -/
theorem sparse_items_never_saturate (rng : Rng ℝ)
    (hu : ∀ (p : ℕ) (a b : ℝ), a ≤ b → a ≤ rng.uniform p a b ∧ rng.uniform p a b ≤ b)
    (cat : Category) (hcat : cat = Category.slow ∨ cat = Category.lumpy)
    (pos : ℕ) (sy : ℤ) (t : Timestamp) :
    effectiveRate ((sampleParams rng rpow10 cat pos).1) sy t ≤ 1 / 8 ∧
      (1 / 8 : ℝ) < 1 := by
  refine ⟨?_, by norm_num⟩
  have hcat' : ¬(cat = Category.smooth ∨ cat = Category.erratic) := by
    rcases hcat with h | h <;> subst h <;> simp
  have hu1 : rng.uniform pos (-(7 / 2)) (-1) ≤ -1 :=
    (hu pos (-(7 / 2)) (-1) (by norm_num)).2
  have hlam_le : rpow10 (rng.uniform pos (-(7 / 2)) (-1)) ≤ 1 / 10 := by
    unfold rpow10
    have h10 : (10 : ℝ) ^ rng.uniform pos (-(7 / 2)) (-1) ≤ (10 : ℝ) ^ (-1 : ℝ) :=
      (Real.rpow_le_rpow_left_iff (by norm_num)).mpr hu1
    rwa [Real.rpow_neg_one, show ((10 : ℝ)⁻¹ = 1 / 10) by norm_num] at h10
  have hlam0 : 0 ≤ rpow10 (rng.uniform pos (-(7 / 2)) (-1)) :=
    Real.rpow_nonneg (by norm_num) _
  have hd0 : 0 ≤ rng.uniform (pos + 2) (1 / 20) (3 / 20) := by
    have := (hu (pos + 2) (1 / 20) (3 / 20) (by norm_num)).1
    linarith
  simp only [sampleParams, if_neg hcat', effectiveRate, agedRate]
  have hk0 : (0 : ℝ) ≤
      ((max (t.year - sy - ((rng.randint (pos + 1) 1 4 : ℕ) : ℤ)) 0 : ℤ) : ℝ) := by
    have : (0 : ℤ) ≤ max (t.year - sy - ((rng.randint (pos + 1) 1 4 : ℕ) : ℤ)) 0 :=
      le_max_right _ _
    exact_mod_cast this
  have hA1 : max (1 - rng.uniform (pos + 2) (1 / 20) (3 / 20) *
      ((max (t.year - sy - ((rng.randint (pos + 1) 1 4 : ℕ) : ℤ)) 0 : ℤ) : ℝ))
      (1 / 10) ≤ 1 := by
    apply max_le
    · nlinarith [mul_nonneg hd0 hk0]
    · norm_num
  have hA0 : (0 : ℝ) ≤ max (1 - rng.uniform (pos + 2) (1 / 20) (3 / 20) *
      ((max (t.year - sy - ((rng.randint (pos + 1) 1 4 : ℕ) : ℤ)) 0 : ℤ) : ℝ))
      (1 / 10) := le_trans (by norm_num) (le_max_right _ _)
  have hdow : (0 : ℝ) ≤ dowFactor t.weekday ∧ (dowFactor t.weekday : ℝ) ≤ 1 := by
    unfold dowFactor
    split_ifs <;> norm_num
  have hq : (0 : ℝ) ≤ qFactor t.month ∧ (qFactor t.month : ℝ) ≤ 5 / 4 := by
    unfold qFactor
    split_ifs <;> norm_num
  have haged : rpow10 (rng.uniform pos (-(7 / 2)) (-1)) *
      max (1 - rng.uniform (pos + 2) (1 / 20) (3 / 20) *
        ((max (t.year - sy - ((rng.randint (pos + 1) 1 4 : ℕ) : ℤ)) 0 : ℤ) : ℝ))
        (1 / 10) ≤ 1 / 10 := by
    have := mul_le_mul hlam_le hA1 hA0 (by norm_num : (0 : ℝ) ≤ 1 / 10)
    linarith
  have haged0 : (0 : ℝ) ≤ rpow10 (rng.uniform pos (-(7 / 2)) (-1)) *
      max (1 - rng.uniform (pos + 2) (1 / 20) (3 / 20) *
        ((max (t.year - sy - ((rng.randint (pos + 1) 1 4 : ℕ) : ℤ)) 0 : ℤ) : ℝ))
        (1 / 10) := mul_nonneg hlam0 hA0
  have hstep : rpow10 (rng.uniform pos (-(7 / 2)) (-1)) *
      max (1 - rng.uniform (pos + 2) (1 / 20) (3 / 20) *
        ((max (t.year - sy - ((rng.randint (pos + 1) 1 4 : ℕ) : ℤ)) 0 : ℤ) : ℝ))
        (1 / 10) * dowFactor t.weekday ≤ 1 / 10 := by
    have := mul_le_mul haged hdow.2 hdow.1 (by norm_num : (0 : ℝ) ≤ 1 / 10)
    linarith
  have hstep0 : (0 : ℝ) ≤ rpow10 (rng.uniform pos (-(7 / 2)) (-1)) *
      max (1 - rng.uniform (pos + 2) (1 / 20) (3 / 20) *
        ((max (t.year - sy - ((rng.randint (pos + 1) 1 4 : ℕ) : ℤ)) 0 : ℤ) : ℝ))
        (1 / 10) * dowFactor t.weekday := mul_nonneg haged0 hdow.1
  have := mul_le_mul hstep hq.2 hq.1 (by norm_num : (0 : ℝ) ≤ 1 / 10)
  linarith

theorem sparse_items_never_saturate_witness :
    effectiveRate ((sampleParams rngR rpow10 Category.slow 0).1) 1970 ⟨0⟩ ≤ 1 / 8 ∧
      (1 / 8 : ℝ) < 1 :=
  sparse_items_never_saturate rngR (fun _ a _ hab => ⟨le_refl a, hab⟩)
    Category.slow (Or.inl rfl) 0 1970 ⟨0⟩

end SpareParts
